import Mathlib

/-!
Verification of the Craigslist housing scraper (`src/scrapers/scraper.py`)
against its natural-language specification.

The HTML documents consumed by the scraper are modelled as abstract
structures holding exactly the query results the code reads via
BeautifulSoup (selected elements and their extracted texts / attributes,
in document order).  The JSON parser (`json.loads`) is an external
collaborator and is modelled as an abstract function parameter
`String → Option _`; `none` models a `JSONDecodeError` / `TypeError`.
Pure string manipulations (`strip`, slicing, `split`, `startswith`,
concatenation) are translated into executable Lean functions on the
character lists underlying `String`.
-/

/-- Characters of Python `s.strip()`: drop whitespace from both ends. -/
def stripChars (cs : List Char) : List Char :=
  ((cs.dropWhile Char.isWhitespace).reverse.dropWhile Char.isWhitespace).reverse

/-- Python `s.strip()`. -/
def pystrip (s : String) : String := ⟨stripChars s.data⟩

/-- Python slicing `s[:n]`. -/
def pytake (n : Nat) (s : String) : String := ⟨s.data.take n⟩

/-- Python `s.split("#")[0]`: the part of `s` before the first `'#'`. -/
def beforeHash (s : String) : String := ⟨s.data.takeWhile (fun c => c ≠ '#')⟩

/-- Python `s.startswith(p)`. -/
def pystartswith (p s : String) : Bool := p.data.isPrefixOf s.data

/-- Python `s or d` for strings: `d` when `s` is empty (falsy), else `s`. -/
def pyOr (s d : String) : String := if s = "" then d else s

/-- Site origin constant `BASE_URL` from the source. -/
def BASE_URL : String := "https://sfbay.craigslist.org"

/-- Source `normalize_listing_url`: strip, drop the fragment, resolve a
leading-slash path against `BASE_URL`, reject non-`http` results. -/
def normalize_listing_url (href : String) : String :=
  if href = "" then ""
  else
    let h := beforeHash (pystrip href)
    let h := if pystartswith "/" h then BASE_URL ++ h else h
    if pystartswith "http" h then h else ""

section ListLemmas

variable {α : Type _} (p : α → Bool)

theorem dropWhile_idem (l : List α) :
    (l.dropWhile p).dropWhile p = l.dropWhile p := by
  induction l with
  | nil => rfl
  | cons a t ih =>
    by_cases h : p a
    · rw [List.dropWhile_cons_of_pos h]; exact ih
    · rw [List.dropWhile_cons_of_neg h, List.dropWhile_cons_of_neg h]

theorem dropWhile_len_le (l : List α) :
    (l.dropWhile p).length ≤ l.length := by
  induction l with
  | nil => exact Nat.le_refl 0
  | cons a t ih =>
    by_cases h : p a
    · rw [List.dropWhile_cons_of_pos h]
      exact Nat.le_trans ih (Nat.le_succ _)
    · rw [List.dropWhile_cons_of_neg h]

theorem dropWhile_head_false {a : α} {t : List α}
    (h : (a :: t).dropWhile p = a :: t) : p a = false := by
  by_cases hpa : p a
  · rw [List.dropWhile_cons_of_pos hpa] at h
    have := congrArg List.length h
    simp only [List.length_cons] at this
    have hle := dropWhile_len_le p t
    omega
  · exact Bool.eq_false_iff.mpr hpa

theorem dropWhile_eq_self_of_prefix {l m : List α}
    (hl : l.dropWhile p = l) (hm : m <+: l) : m.dropWhile p = m := by
  cases m with
  | nil => rfl
  | cons b u =>
    obtain ⟨t, ht⟩ := hm
    have hb : p b = false := by
      have : l = b :: (u ++ t) := by rw [← ht]; rfl
      rw [this] at hl
      exact dropWhile_head_false p hl
    rw [List.dropWhile_cons_of_neg (by simp [hb])]

theorem dropWhile_suffix (l : List α) : l.dropWhile p <:+ l := by
  induction l with
  | nil => exact List.suffix_refl _
  | cons a t ih =>
    by_cases h : p a
    · rw [List.dropWhile_cons_of_pos h]
      exact ih.trans (List.suffix_cons a t)
    · rw [List.dropWhile_cons_of_neg h]

theorem mem_dropWhile_subset {c : α} {l : List α}
    (h : c ∈ l.dropWhile p) : c ∈ l :=
  (dropWhile_suffix p l).sublist.subset h

theorem mem_takeWhile_pred {c : α} {l : List α}
    (h : c ∈ l.takeWhile p) : p c = true := by
  induction l with
  | nil => cases h
  | cons a t ih =>
    by_cases hpa : p a
    · rw [List.takeWhile_cons_of_pos hpa] at h
      rcases List.mem_cons.mp h with rfl | hmem
      · exact hpa
      · exact ih hmem
    · rw [List.takeWhile_cons_of_neg hpa] at h; cases h

theorem takeWhile_eq_self_of_all {l : List α}
    (h : ∀ c ∈ l, p c = true) : l.takeWhile p = l := by
  induction l with
  | nil => rfl
  | cons a t ih =>
    rw [List.takeWhile_cons_of_pos (h a (List.mem_cons_self a t))]
    rw [ih (fun c hc => h c (List.mem_cons_of_mem a hc))]

theorem dropWhile_append_left {l m : List α}
    (hl : l.dropWhile p = l) (hne : l ≠ []) :
    (l ++ m).dropWhile p = l ++ m := by
  cases l with
  | nil => exact absurd rfl hne
  | cons a t =>
    have ha : p a = false := dropWhile_head_false p hl
    rw [List.cons_append, List.dropWhile_cons_of_neg (by simp [ha])]

end ListLemmas

theorem stripChars_idem (cs : List Char) :
    stripChars (stripChars cs) = stripChars cs := by
  set w := Char.isWhitespace with hw
  set A := cs.dropWhile w with hA
  set B := A.reverse.dropWhile w with hB
  have hAself : A.dropWhile w = A := by rw [hA]; exact dropWhile_idem w cs
  have hBself : B.dropWhile w = B := by rw [hB]; exact dropWhile_idem w A.reverse
  have hpre : B.reverse <+: A := by
    obtain ⟨t, ht⟩ := dropWhile_suffix w A.reverse
    exact ⟨t.reverse, by rw [← List.reverse_append, ht, List.reverse_reverse]⟩
  have h1 : B.reverse.dropWhile w = B.reverse :=
    dropWhile_eq_self_of_prefix w hAself hpre
  show stripChars B.reverse = B.reverse
  unfold stripChars
  rw [h1, List.reverse_reverse, hBself]

theorem pystrip_idem (s : String) : pystrip (pystrip s) = pystrip s := by
  show (⟨stripChars (⟨stripChars s.data⟩ : String).data⟩ : String) = _
  exact congrArg String.mk (stripChars_idem s.data)

theorem mem_stripChars {c : Char} {l : List Char}
    (h : c ∈ stripChars l) : c ∈ l := by
  unfold stripChars at h
  rw [List.mem_reverse] at h
  have h2 := mem_dropWhile_subset _ h
  rw [List.mem_reverse] at h2
  exact mem_dropWhile_subset _ h2

/-- Canonical listing record: the dict keys built by the parsers and by
`_normalize_listings` / `_listing_to_row` (an absent key is modelled as
the empty string, matching the `r.get(k) or ...` reads in the source). -/
structure Listing where
  url : String
  address : String
  price : String
  bedrooms : String
  bathrooms : String
  source : String
deriving DecidableEq, Inhabited

/-- An `a.result-title` element inside a result row: its stripped text and
its `href` attribute (`get("href", "")`, so an absent attribute is `""`). -/
structure LinkEl where
  text : String
  href : String
deriving DecidableEq, Inhabited

/-- One `.result-row` element: the optional title link, the stripped text of
the first price element (`span.result-price` or else `div.price`), and the
stripped text of the `.result-hood` element, when present. -/
structure ResultRow where
  link : Option LinkEl
  priceText : Option String
  hoodText : Option String
deriving DecidableEq, Inhabited

/-- The nested `address` object of a JSON-LD search item. -/
structure LdAddress where
  streetAddress : Option String
  addressLocality : Option String
  addressRegion : Option String
deriving DecidableEq, Inhabited

/-- One JSON-LD search item.  `numberOfBedrooms` / `numberOfBathroomsTotal`
hold the `str(...)` rendering of the JSON value when the key is non-null. -/
structure LdItem where
  address : Option LdAddress
  numberOfBedrooms : Option String
  numberOfBathroomsTotal : Option String
deriving DecidableEq, Inhabited

/-- One element of `itemListElement`; `item` is its `item` sub-object. -/
structure LdElement where
  item : Option LdItem
deriving DecidableEq, Inhabited

/-- The decoded search-page JSON-LD payload. -/
structure LdData where
  itemListElement : Option (List LdElement)
deriving DecidableEq, Inhabited

/-- Abstract search-results document: the query results the code reads.
`ldScript` is the unique `script[type=application/ld+json]#ld_searchpage_results`
element together with its `.string` (which may be `None`); `anchorHrefs` are
the `href` values of all `a[href]` elements in document order;
`priceDivTexts` / `resultPriceSpanTexts` are the stripped texts of all
`div.price` / `span.result-price` elements in document order. -/
structure SearchDoc where
  resultRows : List ResultRow
  ldScript : Option (Option String)
  anchorHrefs : List String
  priceDivTexts : List String
  resultPriceSpanTexts : List String
deriving DecidableEq, Inhabited

/-- The `href` read from a result row (`""` when the row has no title link). -/
def rowHref (row : ResultRow) : String := (row.link.map LinkEl.href).getD ""

/-- One iteration of the row loop in source `get_listings_from_html`. -/
def rowToListing (row : ResultRow) : Listing :=
  let title := (row.link.map LinkEl.text).getD ""
  let href := rowHref row
  let url := normalize_listing_url href
  let price := pystrip (row.priceText.getD "")
  let location := pystrip (row.hoodText.getD "")
  let address := pyOr location (pyOr title "N/A")
  { url := url, address := address, price := price,
    bedrooms := "", bathrooms := "N/A", source := "" }

/-- Source `get_listings_from_html`: `[]` when no `.result-row` matches,
else one listing per row. -/
def get_listings_from_html (d : SearchDoc) : List Listing :=
  if d.resultRows.isEmpty then [] else d.resultRows.map rowToListing

/-- One iteration of the item loop in source `get_listings_from_jsonld`. -/
def ldItemToListing (el : LdElement) : Listing :=
  let item := el.item.getD ⟨none, none, none⟩
  let addr := item.address.getD ⟨none, none, none⟩
  let locality := addr.addressLocality.getD ""
  let region := addr.addressRegion.getD ""
  let street := addr.streetAddress.getD ""
  let address_parts := [street, locality, region].filter (fun p => p ≠ "")
  let address := if address_parts ≠ [] then String.intercalate ", " address_parts
                 else pyOr locality "N/A"
  let bedrooms := (item.numberOfBedrooms.map id).getD "N/A"
  let bathrooms := (item.numberOfBathroomsTotal.map id).getD "N/A"
  { url := "", address := address, price := "",
    bedrooms := bedrooms, bathrooms := bathrooms, source := "" }

/-- Source `get_listings_from_jsonld`, with `json.loads` abstracted as `j`
(`none` models a `JSONDecodeError`).  Returns `[]` when the script element
is missing, its string is `None` or empty, or decoding fails. -/
def get_listings_from_jsonld (j : String → Option LdData)
    (d : SearchDoc) : List Listing :=
  match d.ldScript with
  | none => []
  | some none => []
  | some (some s) =>
    if s = "" then []
    else
      match j s with
      | none => []
      | some data =>
        let items := data.itemListElement.getD []
        items.map ldItemToListing

/-- Lowercase letter test for the `[a-z]` atoms of the detail-URL regex. -/
def isLowerAZ (c : Char) : Bool := 'a' ≤ c && c ≤ 'z'

/-- Digit test for the `\d` atom of the detail-URL regex. -/
def isDigit09 (c : Char) : Bool := '0' ≤ c && c ≤ '9'

/-- Anchored match of the source regex
`/[a-z]+/[a-z]+/d/[^/]+/\d+\.html` at the start of `cs`.  Each `X+`
atom is followed by a character `X` cannot match, so maximal munch is
equivalent to backtracking. -/
def matchCore (cs : List Char) : Bool :=
  match cs with
  | '/' :: r0 =>
    match r0.span isLowerAZ with
    | (s1, r1) =>
      if s1.isEmpty then false else
      match r1 with
      | '/' :: r2 =>
        match r2.span isLowerAZ with
        | (s2, r3) =>
          if s2.isEmpty then false else
          match r3 with
          | '/' :: 'd' :: '/' :: r4 =>
            match r4.span (fun c => c ≠ '/') with
            | (s3, r5) =>
              if s3.isEmpty then false else
              match r5 with
              | '/' :: r6 =>
                match r6.span isDigit09 with
                | (s4, r7) =>
                  if s4.isEmpty then false else
                  match r7 with
                  | '.' :: 'h' :: 't' :: 'm' :: 'l' :: _ => true
                  | _ => false
              | _ => false
          | _ => false
      | _ => false
  | _ => false

/-- Python `pattern.search(h)`: the regex matches at some position. -/
def patSearch : List Char → Bool
  | [] => false
  | c :: rest => matchCore (c :: rest) || patSearch rest

/-- One iteration of the anchor loop in source `get_listing_urls_from_html`;
`acc` is simultaneously the `urls` list and the `seen` set (they always hold
the same elements in the source). -/
def urlCollect (acc : List String) (h : String) : List String :=
  if patSearch h.data then
    let pre := if pystartswith "http" h then h else BASE_URL ++ h
    let full := normalize_listing_url pre
    if full ≠ "" && !(acc.contains full) then acc ++ [full] else acc
  else acc

/-- Source `get_listing_urls_from_html`: pattern-matching anchor
destinations, normalized, deduplicated keeping first occurrence. -/
def get_listing_urls_from_html (d : SearchDoc) : List String :=
  d.anchorHrefs.foldl urlCollect []

/-- Source `get_prices_from_html`: texts of all `div.price` elements, or
else (when that select is empty) of all `span.result-price` elements. -/
def get_prices_from_html (d : SearchDoc) : List String :=
  let els := if d.priceDivTexts.isEmpty then d.resultPriceSpanTexts
             else d.priceDivTexts
  els

/-- One record pass of source `_normalize_listings`: trim fields,
substitute `"N/A"` for empty optional fields, set `source`, and drop the
record (`none`) when its trimmed `url` is empty. -/
def normalizeListing? (r : Listing) : Option Listing :=
  let url := pystrip r.url
  let address := pyOr (pystrip r.address) "N/A"
  let price := pyOr (pystrip r.price) "N/A"
  let bedrooms := pyOr (pystrip r.bedrooms) "N/A"
  let bathrooms := pyOr (pystrip r.bathrooms) "N/A"
  if url = "" then none
  else some { url := url, address := address, price := price,
              bedrooms := bedrooms, bathrooms := bathrooms,
              source := "craigslist" }

/-- Source `_normalize_listings`. -/
def normalize_listings (l : List Listing) : List Listing :=
  l.filterMap normalizeListing?

/-- Positional merge applied to the row at index `i` in source
`parse_listings`: assign `urls[i]` and the stripped `prices[i]` when the
index is in range. -/
def mergeOne (urls prices : List String) (i : Nat) (row : Listing) : Listing :=
  let r1 := if i < urls.length then { row with url := urls.getD i "" } else row
  if i < prices.length then { r1 with price := pystrip (prices.getD i "") } else r1

/-- The `enumerate` loop of source `parse_listings` over the JSON-LD rows,
starting at index `i`. -/
def mergeAt (urls prices : List String) : Nat → List Listing → List Listing
  | _, [] => []
  | i, row :: rest => mergeOne urls prices i row :: mergeAt urls prices (i + 1) rest

/-- Source `parse_listings`: the result-row parse when it yields rows, else
the JSON-LD rows positionally merged with the extracted URL and price
columns; either way normalized. -/
def parse_listings (j : String → Option LdData) (d : SearchDoc) : List Listing :=
  let from_html := get_listings_from_html d
  if from_html.isEmpty then
    normalize_listings
      (mergeAt (get_listing_urls_from_html d) (get_prices_from_html d) 0
        (get_listings_from_jsonld j d))
  else normalize_listings from_html

/-- Source `_listing_to_row`: trim, default, and truncate every field
before the Supabase sink sees it. -/
def listing_to_row (r : Listing) : Listing :=
  { url := pytake 2048 (pystrip r.url),
    address := pytake 1024 (pystrip (pyOr r.address "N/A")),
    price := pytake 255 (pystrip (pyOr r.price "N/A")),
    bedrooms := pytake 50 (pystrip (pyOr r.bedrooms "N/A")),
    bathrooms := pytake 50 (pystrip (pyOr r.bathrooms "N/A")),
    source := "craigslist" }

/-- A JSON value found under `address` (or `itemReviewed.address`) in a
detail-page JSON-LD block: a dict (with the three fields the code reads,
plus its Python truthiness, which the code tests via `or`), a string, or
any other JSON value (with its truthiness). -/
inductive AddrVal where
  | dict (truthy : Bool) (streetAddress addressLocality addressRegion : Option String)
  | str (s : String)
  | other (truthy : Bool)
deriving DecidableEq

/-- Python truthiness of an `AddrVal`. -/
def AddrVal.isTruthy : AddrVal → Bool
  | .dict t _ _ _ => t
  | .str s => s ≠ ""
  | .other t => t

/-- A decoded detail-page JSON-LD payload that is a dict: the `address`
value and the `(data.get("itemReviewed") or \x7b\x7d).get("address")` value. -/
structure DetailLdDict where
  address : Option AddrVal
  itemReviewed_address : Option AddrVal
deriving DecidableEq

/-- A decoded detail-page JSON-LD payload: a dict, or valid JSON that is
not a dict (the `isinstance(data, dict)` guard fails and the loop moves
on). -/
inductive DetailLdVal where
  | dict (d : DetailLdDict)
  | nondict
deriving DecidableEq

/-- Abstract listing-detail document: `addrEl` is the stripped text of the
first element matching `.mapaddress`, `[class*=mapaddress]` or
`div.address`; `mapPrevSibling` is the stripped text of the previous
sibling of `#map` when both exist; `ldScripts` are the `.string` values of
all `script[type=application/ld+json]` elements in order; `attrgroupSpans`
are the stripped texts of all `.attrgroup span` elements; `postingBody` is
the raw text of `#postingbody` (or `.posting-body`), when present. -/
structure DetailDoc where
  addrEl : Option String
  mapPrevSibling : Option String
  ldScripts : List (Option String)
  attrgroupSpans : List String
  postingBody : Option String
deriving DecidableEq, Inhabited

/-- Python `addr = data.get("address") or (data.get("itemReviewed") or \x7b\x7d).get("address")`. -/
def pickAddr (d : DetailLdDict) : Option AddrVal :=
  match d.address with
  | some a => if a.isTruthy then some a else d.itemReviewed_address
  | none => d.itemReviewed_address

/-- The JSON-LD step (step 3) of source `extract_address_from_detail`:
scan the scripts in order; a `None` string or a decode failure is
swallowed and the scan continues. -/
def step3Scan (jd : String → Option DetailLdVal) : List (Option String) → Option String
  | [] => none
  | none :: rest => step3Scan jd rest
  | some s :: rest =>
    match jd s with
    | none => step3Scan jd rest
    | some .nondict => step3Scan jd rest
    | some (.dict data) =>
      match pickAddr data with
      | some (.dict _ st lo re) =>
        let street := st.getD ""
        if street ≠ "" then
          some (String.intercalate ", "
            (([street, lo.getD "", re.getD ""]).filter (fun p => p ≠ "")))
        else step3Scan jd rest
      | some (.str a) => if 5 < a.data.length then some a else step3Scan jd rest
      | some (.other _) => step3Scan jd rest
      | none => step3Scan jd rest

/-- Python `s.split(":", 1)[-1]`: the part after the first colon when one
exists, else the whole string. -/
def afterColon (s : String) : String :=
  if s.data.any (fun c => c = ':') then ⟨(s.data.dropWhile (fun c => c ≠ ':')).tail⟩
  else s

/-- The attrgroup step (step 4) of source `extract_address_from_detail`. -/
def attrScan : List String → Option String
  | [] => none
  | t :: rest =>
    let low := t.toLower
    if pystartswith "address:" low || pystartswith "address :" low then
      let val := pystrip (afterColon t)
      if 5 < val.data.length then some val else attrScan rest
    else attrScan rest

/-- Source `extract_address_from_detail`: the ordered cascade.  `jd`
abstracts `json.loads` on detail pages; `bodyRe` abstracts the
street-address regex search over the posting body (returning `group(1)`),
whose internals no claim depends on. -/
def extract_address_from_detail (jd : String → Option DetailLdVal)
    (bodyRe : String → Option String) (d : DetailDoc) : Option String :=
  match d.addrEl with
  | some t => if t ≠ "" ∧ 5 < t.data.length then some t
              else extractAfterStep1 jd bodyRe d
  | none => extractAfterStep1 jd bodyRe d
where
  extractAfterStep1 (jd : String → Option DetailLdVal)
      (bodyRe : String → Option String) (d : DetailDoc) : Option String :=
    match d.mapPrevSibling with
    | some t => if t ≠ "" ∧ 5 < t.data.length then some t
                else extractAfterStep2 jd bodyRe d
    | none => extractAfterStep2 jd bodyRe d
  extractAfterStep2 (jd : String → Option DetailLdVal)
      (bodyRe : String → Option String) (d : DetailDoc) : Option String :=
    match step3Scan jd d.ldScripts with
    | some r => some r
    | none =>
      match attrScan d.attrgroupSpans with
      | some r => some r
      | none =>
        match d.postingBody with
        | some text => (bodyRe text).map pystrip
        | none => none

/-- The body of the enrichment loop in source `search`:
`fetch_address_for_listing` (fetch + extract, every exception caught) is
abstracted as the oracle `f`; a truthy result overwrites `address`. -/
def enrichStep (f : String → Option String) (l : Listing) : Listing :=
  match f l.url with
  | some a => if a = "" then l else { l with address := a }
  | none => l

/-- The enrichment loop of source `search` from index `i` on: the loop
breaks at `max_detail_fetches` (`bound`); records past it are unchanged. -/
def enrichFrom (f : String → Option String) (bound : Nat) :
    Nat → List Listing → List Listing
  | _, [] => []
  | i, l :: rest =>
    (if i < bound then enrichStep f l else l) :: enrichFrom f bound (i + 1) rest

/-- The enrichment pass of source `search` (lines 272-280), applied to the
reconciled listings with `bound = max_detail_fetches`. -/
def search_enrich (f : String → Option String) (bound : Nat)
    (listings : List Listing) : List Listing :=
  enrichFrom f bound 0 listings

theorem pystrip_NA : pystrip "N/A" = "N/A" := by decide

theorem pyOr_strip_stable (s : String) :
    pyOr (pystrip (pyOr (pystrip s) "N/A")) "N/A" = pyOr (pystrip s) "N/A" := by
  by_cases h : pystrip s = ""
  · rw [h]; decide
  · have h1 : pyOr (pystrip s) "N/A" = pystrip s := by simp [pyOr, h]
    rw [h1, pystrip_idem, h1]

theorem normalizeListing_eq {r out : Listing}
    (h : normalizeListing? r = some out) :
    pystrip r.url ≠ "" ∧
    out = { url := pystrip r.url,
            address := pyOr (pystrip r.address) "N/A",
            price := pyOr (pystrip r.price) "N/A",
            bedrooms := pyOr (pystrip r.bedrooms) "N/A",
            bathrooms := pyOr (pystrip r.bathrooms) "N/A",
            source := "craigslist" } := by
  unfold normalizeListing? at h
  by_cases hu : pystrip r.url = ""
  · simp [hu] at h
  · simp only [if_neg hu, Option.some.injEq] at h
    exact ⟨hu, h.symm⟩

theorem normalizeListing_stable {r out : Listing}
    (h : normalizeListing? r = some out) :
    normalizeListing? out = some out := by
  obtain ⟨hu, hout⟩ := normalizeListing_eq h
  subst hout
  unfold normalizeListing?
  simp only [pystrip_idem, pyOr_strip_stable]
  rw [if_neg hu]

/-- Claim C9: `_normalize_listings` is idempotent — normalizing an
already-normalized record list yields the same list. -/
theorem normalize_listings_idem (l : List Listing) :
    normalize_listings (normalize_listings l) = normalize_listings l := by
  unfold normalize_listings
  induction l with
  | nil => rfl
  | cons r t ih =>
    rw [List.filterMap_cons]
    cases hr : normalizeListing? r with
    | none => exact ih
    | some b =>
      rw [List.filterMap_cons, normalizeListing_stable hr, ih]

theorem parse_listings_def (j : String → Option LdData) (d : SearchDoc) :
    parse_listings j d =
      if (get_listings_from_html d).isEmpty then
        normalize_listings
          (mergeAt (get_listing_urls_from_html d) (get_prices_from_html d) 0
            (get_listings_from_jsonld j d))
      else normalize_listings (get_listings_from_html d) := rfl

theorem exists_raw_of_mem_parse {j : String → Option LdData} {d : SearchDoc}
    {r : Listing} (h : r ∈ parse_listings j d) :
    ∃ raw, normalizeListing? raw = some r := by
  rw [parse_listings_def] at h
  split at h <;>
  · unfold normalize_listings at h
    obtain ⟨raw, _, hf⟩ := List.mem_filterMap.mp h
    exact ⟨raw, hf⟩

/-- Claim C1 (amended): every record produced by `parse_listings` comes
from a raw record via the normalization step, and each optional field
that was absent or empty in the raw channels (address, price, bedrooms,
bathrooms) equals the sentinel literal `"N/A"` in the output. -/
theorem parse_listings_sentinel_NA (j : String → Option LdData)
    (d : SearchDoc) (r : Listing) (h : r ∈ parse_listings j d) :
    ∃ raw, normalizeListing? raw = some r ∧
      (pystrip raw.address = "" → r.address = "N/A") ∧
      (pystrip raw.price = "" → r.price = "N/A") ∧
      (pystrip raw.bedrooms = "" → r.bedrooms = "N/A") ∧
      (pystrip raw.bathrooms = "" → r.bathrooms = "N/A") := by
  obtain ⟨raw, hf⟩ := exists_raw_of_mem_parse h
  obtain ⟨-, rfl⟩ := normalizeListing_eq hf
  refine ⟨raw, hf, ?_, ?_, ?_, ?_⟩ <;>
  · intro he
    show pyOr (pystrip _) "N/A" = "N/A"
    rw [he]
    rfl

/-- Search page with a single result row that has no price element and no
hood element (both optional channels absent). -/
def sentinelDoc : SearchDoc :=
  { resultRows := [⟨some ⟨"Cozy Berkeley Studio", "/eby/apa/d/berkeley/7001.html"⟩,
                    none, none⟩],
    ldScript := none, anchorHrefs := [], priceDivTexts := [],
    resultPriceSpanTexts := [] }

/-- The record `parse_listings` produces from `sentinelDoc`. -/
def sentinelRec : Listing :=
  { url := "https://sfbay.craigslist.org/eby/apa/d/berkeley/7001.html",
    address := "Cozy Berkeley Studio", price := "N/A",
    bedrooms := "N/A", bathrooms := "N/A", source := "craigslist" }

/-- Claim C1 (counterexample to the claim as stated): on a document whose
single row has an absent price channel, the output record price is
`"N/A"`, which is not the claimed sentinel literal `"unknown"`. -/
theorem parse_listings_sentinel_unknown_cex :
    (parse_listings (fun _ => none) sentinelDoc).map Listing.price = ["N/A"] ∧
    ("N/A" : String) ≠ "unknown" := by decide

/-- Witness for `parse_listings_sentinel_NA` at the concrete record
produced from `sentinelDoc`. -/
theorem parse_listings_sentinel_NA_witness :
    ∃ raw, normalizeListing? raw = some sentinelRec ∧
      (pystrip raw.address = "" → sentinelRec.address = "N/A") ∧
      (pystrip raw.price = "" → sentinelRec.price = "N/A") ∧
      (pystrip raw.bedrooms = "" → sentinelRec.bedrooms = "N/A") ∧
      (pystrip raw.bathrooms = "" → sentinelRec.bathrooms = "N/A") :=
  parse_listings_sentinel_NA (fun _ => none) sentinelDoc sentinelRec (by decide)

theorem normalizeListing_none {r : Listing} (h : pystrip r.url = "") :
    normalizeListing? r = none := by
  unfold normalizeListing?
  simp [h]

theorem normalizeListing_some {r : Listing} (h : pystrip r.url ≠ "") :
    ∃ out, normalizeListing? r = some out ∧ out.url = pystrip r.url := by
  unfold normalizeListing?
  rw [if_neg h]
  exact ⟨_, rfl, rfl⟩

theorem urls_of_normalize_rows (rows : List ResultRow) :
    (normalize_listings (rows.map rowToListing)).map Listing.url =
      (rows.map (fun row => pystrip (normalize_listing_url (rowHref row)))).filter
        (fun u => u ≠ "") := by
  induction rows with
  | nil => rfl
  | cons row t ih =>
    show (List.filterMap normalizeListing?
      (rowToListing row :: t.map rowToListing)).map Listing.url = _
    rw [List.filterMap_cons, List.map_cons, List.filter_cons]
    by_cases hu : pystrip (normalize_listing_url (rowHref row)) = ""
    · have h0 : pystrip (rowToListing row).url = "" := hu
      rw [normalizeListing_none h0, if_neg (by simp [hu])]
      exact ih
    · obtain ⟨out, hsome, hurl⟩ := normalizeListing_some
        (r := rowToListing row) hu
      rw [hsome, if_pos (by simp [hu]), List.map_cons, hurl]
      exact congrArg (List.cons _) ih

/-- Claim C2 (amended): for documents exposing the result-row structure,
the output URLs equal the trimmed normalized link destinations of those
rows, in order, with empty destinations dropped — and with NO
deduplication: a repeated `url` is kept repeated. -/
theorem rowpath_urls (j : String → Option LdData) (d : SearchDoc)
    (h : d.resultRows ≠ []) :
    (parse_listings j d).map Listing.url =
      (d.resultRows.map (fun row => pystrip (normalize_listing_url (rowHref row)))).filter
        (fun u => u ≠ "") := by
  have hne : d.resultRows.isEmpty = false := by
    cases hr : d.resultRows with
    | nil => exact absurd hr h
    | cons a t => rfl
  have hg : get_listings_from_html d = d.resultRows.map rowToListing := by
    unfold get_listings_from_html
    rw [hne]
    rfl
  have hgne : (get_listings_from_html d).isEmpty = false := by
    rw [hg]
    cases hr : d.resultRows with
    | nil => exact absurd hr h
    | cons a t => rfl
  rw [parse_listings_def, hgne]
  show (normalize_listings (get_listings_from_html d)).map Listing.url = _
  rw [hg]
  exact urls_of_normalize_rows d.resultRows

/-- Search page with two result rows pointing at the same listing URL. -/
def dupDoc : SearchDoc :=
  { resultRows := [⟨some ⟨"Listing A", "/eby/apa/d/berkeley/7001.html"⟩, none, none⟩,
                   ⟨some ⟨"Listing B", "/eby/apa/d/berkeley/7001.html"⟩, none, none⟩],
    ldScript := none, anchorHrefs := [], priceDivTexts := [],
    resultPriceSpanTexts := [] }

/-- Claim C2 (counterexample to the claim as stated): on a document with
two result rows carrying the same link destination, the output contains
two records with the same `url` — duplicates are not collapsed. -/
theorem rowpath_urls_dedup_cex :
    ¬ ((parse_listings (fun _ => none) dupDoc).map Listing.url).Nodup := by decide

/-- Witness for `rowpath_urls` at the concrete document `sentinelDoc`. -/
theorem rowpath_urls_witness :
    (parse_listings (fun _ => none) sentinelDoc).map Listing.url =
      (sentinelDoc.resultRows.map
        (fun row => pystrip (normalize_listing_url (rowHref row)))).filter
        (fun u => u ≠ "") :=
  rowpath_urls (fun _ => none) sentinelDoc (by decide)

theorem pytake_len_le (n : Nat) (s : String) : (pytake n s).data.length ≤ n := by
  show (s.data.take n).length ≤ n
  rw [List.length_take]
  exact Nat.min_le_left _ _

/-- Claim C3 (amended): every field of a row handed to the persistence
sink is truncated to its bounded maximum length — url to 2048, address
to 1024, price to 255 (not 50), bedrooms and bathrooms to 50. -/
theorem listing_to_row_bounds (r : Listing) :
    (listing_to_row r).url.data.length ≤ 2048 ∧
    (listing_to_row r).address.data.length ≤ 1024 ∧
    (listing_to_row r).price.data.length ≤ 255 ∧
    (listing_to_row r).bedrooms.data.length ≤ 50 ∧
    (listing_to_row r).bathrooms.data.length ≤ 50 :=
  ⟨pytake_len_le _ _, pytake_len_le _ _, pytake_len_le _ _,
   pytake_len_le _ _, pytake_len_le _ _⟩

/-- Listing whose price string is 51 characters long. -/
def longPriceListing : Listing :=
  { url := "https://sfbay.craigslist.org/eby/apa/d/berkeley/7001.html",
    address := "a", price := "$1,000 per month plus utilities and parking fees xx",
    bedrooms := "1", bathrooms := "1", source := "craigslist" }

/-- Claim C3 (counterexample to the claim as stated): a 51-character price
survives `_listing_to_row` intact — the price bound in the code is 255
characters, not the claimed 50. -/
theorem listing_to_row_price_cex :
    ¬ ((listing_to_row longPriceListing).price.data.length ≤ 50) := by decide

/-- Claim C7: when the uniquely identified JSON-LD payload is absent, has
no content (a `None` or empty string), or fails to decode, the
structured-data parser returns the empty list. -/
theorem jsonld_absent_empty (j : String → Option LdData) (d : SearchDoc) :
    (d.ldScript = none → get_listings_from_jsonld j d = []) ∧
    (d.ldScript = some none → get_listings_from_jsonld j d = []) ∧
    (∀ s, d.ldScript = some (some s) → s = "" →
      get_listings_from_jsonld j d = []) ∧
    (∀ s, d.ldScript = some (some s) → j s = none →
      get_listings_from_jsonld j d = []) := by
  refine ⟨fun h => ?_, fun h => ?_, fun s h hs => ?_, fun s h hj => ?_⟩
  · simp only [get_listings_from_jsonld, h]
  · simp only [get_listings_from_jsonld, h]
  · subst hs
    simp [get_listings_from_jsonld, h]
  · simp only [get_listings_from_jsonld, h]
    split
    · rfl
    · rw [hj]

/-- Witness for `jsonld_absent_empty`: a script element whose payload the
decoder rejects yields no listings. -/
theorem jsonld_absent_empty_witness :
    get_listings_from_jsonld (fun _ => none)
      { resultRows := [], ldScript := some (some "not json"),
        anchorHrefs := [], priceDivTexts := [], resultPriceSpanTexts := [] }
      = [] :=
  (jsonld_absent_empty (fun _ => none)
    { resultRows := [], ldScript := some (some "not json"),
      anchorHrefs := [], priceDivTexts := [], resultPriceSpanTexts := [] }).2.2.2
    "not json" rfl rfl

/-- Claim C8 (amended): the price extractor returns the texts of all
elements of the first variant (`div.price`) when any exist, and only
falls back to the second variant (`span.result-price`) when the first
select is empty; the two are never combined. -/
theorem prices_variant_fallback (d : SearchDoc) :
    (d.priceDivTexts ≠ [] → get_prices_from_html d = d.priceDivTexts) ∧
    (d.priceDivTexts = [] → get_prices_from_html d = d.resultPriceSpanTexts) := by
  constructor
  · intro h
    unfold get_prices_from_html
    cases hd : d.priceDivTexts with
    | nil => exact absurd hd h
    | cons a t => rfl
  · intro h
    unfold get_prices_from_html
    rw [h]
    rfl

/-- Search page carrying one price element of each display variant. -/
def bothVariantsDoc : SearchDoc :=
  { resultRows := [], ldScript := none, anchorHrefs := [],
    priceDivTexts := ["$100"], resultPriceSpanTexts := ["$200"] }

/-- Claim C8 (counterexample to the claim as stated): with elements of
both price-display variants present, the `span.result-price` text is NOT
collected — only the `div.price` texts are returned. -/
theorem prices_variant_cex :
    bothVariantsDoc.resultPriceSpanTexts = ["$200"] ∧
    ("$200" : String) ∉ get_prices_from_html bothVariantsDoc := by decide

/-- Witness for `prices_variant_fallback` at `bothVariantsDoc`. -/
theorem prices_variant_fallback_witness :
    get_prices_from_html bothVariantsDoc = ["$100"] :=
  (prices_variant_fallback bothVariantsDoc).1 (by decide)

theorem mergeAt_length (urls prices : List String) (i : Nat)
    (rows : List Listing) :
    (mergeAt urls prices i rows).length = rows.length := by
  induction rows generalizing i with
  | nil => rfl
  | cons r t ih => simp [mergeAt, ih]

theorem mergeAt_getD (urls prices : List String) (rows : List Listing)
    (i k : Nat) (hk : k < rows.length) :
    (mergeAt urls prices i rows).getD k default =
      mergeOne urls prices (i + k) (rows.getD k default) := by
  induction rows generalizing i k with
  | nil => exact absurd hk (Nat.not_lt_zero k)
  | cons r t ih =>
    cases k with
    | zero => rfl
    | succ k =>
      have hk2 : k < t.length := Nat.lt_of_succ_lt_succ hk
      show (mergeAt urls prices (i + 1) t).getD k default = _
      rw [ih (i + 1) k hk2, show i + 1 + k = i + (k + 1) by omega]
      rfl

theorem mergeOne_fields (urls prices : List String) (k : Nat) (row : Listing) :
    (mergeOne urls prices k row).url =
      (if k < urls.length then urls.getD k "" else row.url) ∧
    (mergeOne urls prices k row).price =
      (if k < prices.length then pystrip (prices.getD k "") else row.price) ∧
    (mergeOne urls prices k row).address = row.address ∧
    (mergeOne urls prices k row).bedrooms = row.bedrooms ∧
    (mergeOne urls prices k row).bathrooms = row.bathrooms := by
  unfold mergeOne
  by_cases hu : k < urls.length <;> by_cases hp : k < prices.length <;>
    simp [hu, hp]

theorem jsonld_blank_url_price (j : String → Option LdData) (d : SearchDoc) :
    ∀ r ∈ get_listings_from_jsonld j d, r.url = "" ∧ r.price = "" := by
  intro r hr
  unfold get_listings_from_jsonld at hr
  rcases hscript : d.ldScript with - | (- | s) <;> rw [hscript] at hr <;>
    dsimp only [] at hr
  · cases hr
  · cases hr
  · by_cases hs : s = ""
    · rw [if_pos hs] at hr; cases hr
    · rw [if_neg hs] at hr
      cases hj : j s with
      | none => rw [hj] at hr; dsimp only [] at hr; cases hr
      | some data =>
        rw [hj] at hr
        dsimp only [] at hr
        obtain ⟨el, -, rfl⟩ := List.mem_map.mp hr
        exact ⟨rfl, rfl⟩

/-- Claim C4: when the result-row parser yields no rows, `parse_listings`
merges the JSON-LD rows positionally with the extracted URL and price
columns — row `k` receives `urls[k]` and stripped `prices[k]` exactly when
those indices are in range, all other fields are untouched, the JSON-LD
rows start with empty `url`/`price`, and normalization later discards any
row whose `url` is still empty. -/
theorem fallback_positional_merge (j : String → Option LdData) (d : SearchDoc)
    (h : get_listings_from_html d = []) :
    parse_listings j d =
      normalize_listings
        (mergeAt (get_listing_urls_from_html d) (get_prices_from_html d) 0
          (get_listings_from_jsonld j d)) ∧
    (∀ r ∈ get_listings_from_jsonld j d, r.url = "" ∧ r.price = "") ∧
    (∀ k, k < (get_listings_from_jsonld j d).length →
      ((mergeAt (get_listing_urls_from_html d) (get_prices_from_html d) 0
          (get_listings_from_jsonld j d)).getD k default).url =
        (if k < (get_listing_urls_from_html d).length
         then (get_listing_urls_from_html d).getD k ""
         else ((get_listings_from_jsonld j d).getD k default).url) ∧
      ((mergeAt (get_listing_urls_from_html d) (get_prices_from_html d) 0
          (get_listings_from_jsonld j d)).getD k default).price =
        (if k < (get_prices_from_html d).length
         then pystrip ((get_prices_from_html d).getD k "")
         else ((get_listings_from_jsonld j d).getD k default).price) ∧
      ((mergeAt (get_listing_urls_from_html d) (get_prices_from_html d) 0
          (get_listings_from_jsonld j d)).getD k default).address =
        ((get_listings_from_jsonld j d).getD k default).address ∧
      ((mergeAt (get_listing_urls_from_html d) (get_prices_from_html d) 0
          (get_listings_from_jsonld j d)).getD k default).bedrooms =
        ((get_listings_from_jsonld j d).getD k default).bedrooms ∧
      ((mergeAt (get_listing_urls_from_html d) (get_prices_from_html d) 0
          (get_listings_from_jsonld j d)).getD k default).bathrooms =
        ((get_listings_from_jsonld j d).getD k default).bathrooms) ∧
    (∀ raw : Listing, pystrip raw.url = "" → normalizeListing? raw = none) := by
  refine ⟨?_, jsonld_blank_url_price j d, ?_, fun raw hraw => normalizeListing_none hraw⟩
  · rw [parse_listings_def, h]
    rfl
  · intro k hk
    rw [mergeAt_getD _ _ _ 0 k hk, Nat.zero_add]
    exact mergeOne_fields _ _ _ _

/-- Concrete JSON-LD decoder used by witnesses: decodes the fixed payload
string `"LD"` into one item with address and bedroom data. -/
def ldDecoder : String → Option LdData := fun s =>
  if s = "LD" then
    some ⟨some [⟨some ⟨some ⟨some "123 Main St", some "Berkeley", some "CA"⟩,
                  some "2", none⟩⟩,
                ⟨some ⟨some ⟨some "9 Elm St", some "Oakland", none⟩,
                  none, some "1"⟩⟩]⟩
  else none

/-- Search page with no result rows, a decodable JSON-LD block with two
items, but only one matching detail URL and one price element. -/
def fallbackDoc : SearchDoc :=
  { resultRows := [], ldScript := some (some "LD"),
    anchorHrefs := ["/eby/apa/d/berkeley/7001.html"],
    priceDivTexts := ["$3,100"], resultPriceSpanTexts := [] }

/-- Witness for `fallback_positional_merge` at `fallbackDoc`: row 0 gets
the extracted URL and price; row 1 has no URL left and is discarded. -/
theorem fallback_positional_merge_witness :
    ((mergeAt (get_listing_urls_from_html fallbackDoc)
        (get_prices_from_html fallbackDoc) 0
        (get_listings_from_jsonld ldDecoder fallbackDoc)).getD 0 default).url =
      (if 0 < (get_listing_urls_from_html fallbackDoc).length
       then (get_listing_urls_from_html fallbackDoc).getD 0 ""
       else ((get_listings_from_jsonld ldDecoder fallbackDoc).getD 0 default).url) ∧
    ((mergeAt (get_listing_urls_from_html fallbackDoc)
        (get_prices_from_html fallbackDoc) 0
        (get_listings_from_jsonld ldDecoder fallbackDoc)).getD 0 default).price =
      (if 0 < (get_prices_from_html fallbackDoc).length
       then pystrip ((get_prices_from_html fallbackDoc).getD 0 "")
       else ((get_listings_from_jsonld ldDecoder fallbackDoc).getD 0 default).price) ∧
    ((mergeAt (get_listing_urls_from_html fallbackDoc)
        (get_prices_from_html fallbackDoc) 0
        (get_listings_from_jsonld ldDecoder fallbackDoc)).getD 0 default).address =
      ((get_listings_from_jsonld ldDecoder fallbackDoc).getD 0 default).address ∧
    ((mergeAt (get_listing_urls_from_html fallbackDoc)
        (get_prices_from_html fallbackDoc) 0
        (get_listings_from_jsonld ldDecoder fallbackDoc)).getD 0 default).bedrooms =
      ((get_listings_from_jsonld ldDecoder fallbackDoc).getD 0 default).bedrooms ∧
    ((mergeAt (get_listing_urls_from_html fallbackDoc)
        (get_prices_from_html fallbackDoc) 0
        (get_listings_from_jsonld ldDecoder fallbackDoc)).getD 0 default).bathrooms =
      ((get_listings_from_jsonld ldDecoder fallbackDoc).getD 0 default).bathrooms :=
  (fallback_positional_merge ldDecoder fallbackDoc (by decide)).2.2.1 0 (by decide)

/-- Claim C5: the address-extractor cascade respects its order — on a
detail page that satisfies the step-1 condition (dedicated address element
with text longer than 5 characters) and also the step-3 condition (a
JSON-LD block yielding an address), the extractor returns the step-1
text. -/
theorem extract_cascade_step1 (jd : String → Option DetailLdVal)
    (bodyRe : String → Option String) (d : DetailDoc) (t : String)
    (h1 : d.addrEl = some t) (h2 : 5 < t.data.length)
    (_h3 : ∃ u, step3Scan jd d.ldScripts = some u) :
    extract_address_from_detail jd bodyRe d = some t := by
  have hne : t ≠ "" := by
    intro he
    rw [he] at h2
    exact absurd h2 (by decide)
  unfold extract_address_from_detail
  rw [h1]
  dsimp only []
  rw [if_pos ⟨hne, h2⟩]

/-- Detail page satisfying both the step-1 and the step-3 conditions of
the address cascade. -/
def cascadeDoc : DetailDoc :=
  { addrEl := some "123 Main Street", mapPrevSibling := none,
    ldScripts := [some "DLD"], attrgroupSpans := [], postingBody := none }

/-- Concrete detail-page JSON-LD decoder used by witnesses. -/
def detailDecoder : String → Option DetailLdVal := fun s =>
  if s = "DLD" then some (.dict ⟨some (.str "456 Oak Avenue"), none⟩) else none

/-- Witness for `extract_cascade_step1` at `cascadeDoc`: step 3 would
yield `"456 Oak Avenue"`, yet step 1 wins. -/
theorem extract_cascade_step1_witness :
    extract_address_from_detail detailDecoder (fun _ => none) cascadeDoc =
      some "123 Main Street" :=
  extract_cascade_step1 detailDecoder (fun _ => none) cascadeDoc
    "123 Main Street" rfl (by decide) ⟨"456 Oak Avenue", by decide⟩

theorem enrichFrom_length (f : String → Option String) (bound : Nat)
    (i : Nat) (l : List Listing) :
    (enrichFrom f bound i l).length = l.length := by
  induction l generalizing i with
  | nil => rfl
  | cons r t ih => simp [enrichFrom, ih]

theorem enrichFrom_getD (f : String → Option String) (bound : Nat)
    (l : List Listing) (i k : Nat) (hk : k < l.length) :
    (enrichFrom f bound i l).getD k default =
      (if i + k < bound then enrichStep f (l.getD k default)
       else l.getD k default) := by
  induction l generalizing i k with
  | nil => exact absurd hk (Nat.not_lt_zero k)
  | cons r t ih =>
    cases k with
    | zero =>
      show (if i < bound then enrichStep f r else r) = _
      rw [Nat.add_zero]
      rfl
    | succ k =>
      have hk2 : k < t.length := Nat.lt_of_succ_lt_succ hk
      show (enrichFrom f bound (i + 1) t).getD k default = _
      rw [ih (i + 1) k hk2, show i + 1 + k = i + (k + 1) by omega]
      rfl

theorem enrichStep_frame (f : String → Option String) (l : Listing) :
    (enrichStep f l).url = l.url ∧ (enrichStep f l).price = l.price ∧
    (enrichStep f l).bedrooms = l.bedrooms ∧
    (enrichStep f l).bathrooms = l.bathrooms ∧
    (enrichStep f l).source = l.source := by
  unfold enrichStep
  cases f l.url with
  | none => exact ⟨rfl, rfl, rfl, rfl, rfl⟩
  | some a => by_cases ha : a = "" <;> simp [ha]

theorem enrichStep_none {f : String → Option String} {l : Listing}
    (h : f l.url = none) : enrichStep f l = l := by
  unfold enrichStep
  rw [h]

theorem enrichStep_empty {f : String → Option String} {l : Listing}
    (h : f l.url = some "") : enrichStep f l = l := by
  unfold enrichStep
  rw [h]
  rfl

theorem enrichStep_addr {f : String → Option String} {l : Listing}
    {a : String} (h : f l.url = some a) (ha : a ≠ "") :
    (enrichStep f l).address = a := by
  unfold enrichStep
  rw [h]
  dsimp only []
  rw [if_neg ha]

/-- Claim C6: enrichment touches only indices below the bound (later
records and list order are untouched); a processed record keeps its url,
price, bedrooms, bathrooms and source; a fetch/parse failure (`none`) or
an empty extracted address leaves the record untouched; a non-empty
extracted address overwrites exactly the address field. -/
theorem search_enrich_frame (f : String → Option String) (bound : Nat)
    (l : List Listing) :
    (search_enrich f bound l).length = l.length ∧
    ∀ k, k < l.length →
      (bound ≤ k →
        (search_enrich f bound l).getD k default = l.getD k default) ∧
      (k < bound →
        ((search_enrich f bound l).getD k default).url = (l.getD k default).url ∧
        ((search_enrich f bound l).getD k default).price = (l.getD k default).price ∧
        ((search_enrich f bound l).getD k default).bedrooms = (l.getD k default).bedrooms ∧
        ((search_enrich f bound l).getD k default).bathrooms = (l.getD k default).bathrooms ∧
        ((search_enrich f bound l).getD k default).source = (l.getD k default).source ∧
        (f (l.getD k default).url = none →
          (search_enrich f bound l).getD k default = l.getD k default) ∧
        (f (l.getD k default).url = some "" →
          (search_enrich f bound l).getD k default = l.getD k default) ∧
        (∀ a, f (l.getD k default).url = some a → a ≠ "" →
          ((search_enrich f bound l).getD k default).address = a)) := by
  refine ⟨enrichFrom_length f bound 0 l, fun k hk => ⟨fun hge => ?_, fun hlt => ?_⟩⟩
  · unfold search_enrich
    rw [enrichFrom_getD f bound l 0 k hk, Nat.zero_add, if_neg (Nat.not_lt.mpr hge)]
  · unfold search_enrich
    rw [enrichFrom_getD f bound l 0 k hk, Nat.zero_add, if_pos hlt]
    obtain ⟨h1, h2, h3, h4, h5⟩ := enrichStep_frame f (l.getD k default)
    exact ⟨h1, h2, h3, h4, h5, enrichStep_none, enrichStep_empty,
      fun a ha hane => enrichStep_addr ha hane⟩

/-- Oracle used by the enrichment witness: succeeds on the first URL
only. -/
def enrichOracle : String → Option String := fun u =>
  if u = "https://sfbay.craigslist.org/eby/apa/d/berkeley/7001.html"
  then some "2120 Oxford St, Berkeley, CA" else none

/-- Listing list used by the enrichment witness. -/
def enrichInput : List Listing :=
  [sentinelRec,
   { url := "https://sfbay.craigslist.org/eby/apa/d/oakland/7002.html",
     address := "(oakland)", price := "$2,000", bedrooms := "1",
     bathrooms := "1", source := "craigslist" }]

/-- Witness for `search_enrich_frame`: with bound 1, record 0 gets the
fetched address and record 1 is untouched. -/
theorem search_enrich_frame_witness :
    ((search_enrich enrichOracle 1 enrichInput).getD 0 default).address =
      "2120 Oxford St, Berkeley, CA" ∧
    (search_enrich enrichOracle 1 enrichInput).getD 1 default =
      enrichInput.getD 1 default := by
  constructor
  · exact (((search_enrich_frame enrichOracle 1 enrichInput).2 0 (by decide)).2
      (by decide)).2.2.2.2.2.2.2 "2120 Oxford St, Berkeley, CA" (by decide) (by decide)
  · exact ((search_enrich_frame enrichOracle 1 enrichInput).2 1 (by decide)).1
      (by decide)

theorem pystartswith_head {p s : String} {c : Char} {cs : List Char}
    (hp : p.data = c :: cs) (h : pystartswith p s = true) :
    ∃ t, s.data = c :: t := by
  obtain ⟨r, hr⟩ := List.isPrefixOf_iff_prefix.mp h
  exact ⟨cs ++ r, by rw [← hr, hp]; rfl⟩

theorem ne_empty_of_data_cons {s : String} {c : Char} {t : List Char}
    (h : s.data = c :: t) : s ≠ "" := by
  intro he
  rw [he] at h
  simp at h

theorem startswith_slash_of_http {s : String}
    (h : pystartswith "http" s = true) : pystartswith "/" s = false := by
  obtain ⟨t, ht⟩ := @pystartswith_head "http" s 'h' ['t', 't', 'p'] rfl h
  unfold pystartswith
  rw [ht]
  rfl

theorem startswith_http_base_append (t : String) :
    pystartswith "http" (BASE_URL ++ t) = true := by
  unfold pystartswith
  rw [String.data_append]
  rfl

theorem stripChars_rev_noLead (cs : List Char) :
    (stripChars cs).reverse.dropWhile Char.isWhitespace = (stripChars cs).reverse := by
  unfold stripChars
  rw [List.reverse_reverse]
  exact dropWhile_idem _ _

theorem stripChars_base_append (R : List Char)
    (hR : stripChars R = R) (hne : R ≠ []) :
    stripChars (BASE_URL.data ++ R) = BASE_URL.data ++ R := by
  have hbase : BASE_URL.data.dropWhile Char.isWhitespace = BASE_URL.data := by decide
  have hbasene : BASE_URL.data ≠ [] := by decide
  have hrev : R.reverse.dropWhile Char.isWhitespace = R.reverse := by
    conv_lhs => rw [← hR]
    conv_rhs => rw [← hR]
    exact stripChars_rev_noLead R
  have hrevne : R.reverse ≠ [] := by
    intro he
    exact hne (by simpa using congrArg List.reverse he)
  unfold stripChars
  rw [dropWhile_append_left _ hbase hbasene, List.reverse_append,
    dropWhile_append_left _ hrev hrevne, ← List.reverse_append,
    List.reverse_reverse]

theorem beforeHash_eq_self {s : String} (h : '#' ∉ s.data) : beforeHash s = s := by
  have hall : s.data.takeWhile (fun c => c ≠ '#') = s.data :=
    takeWhile_eq_self_of_all _ (fun c hc => by
      simp only [ne_eq, decide_eq_true_eq]
      exact fun he => h (he ▸ hc))
  exact congrArg String.mk hall

theorem mem_beforeHash_ne {s : String} {c : Char}
    (h : c ∈ (beforeHash s).data) : c ≠ '#' := by
  have := mem_takeWhile_pred _ h
  simpa using this

theorem normalize_listing_url_def (u : String) :
    normalize_listing_url u =
      if u = "" then ""
      else
        if pystartswith "http"
            (if pystartswith "/" (beforeHash (pystrip u))
             then BASE_URL ++ beforeHash (pystrip u)
             else beforeHash (pystrip u))
        then (if pystartswith "/" (beforeHash (pystrip u))
              then BASE_URL ++ beforeHash (pystrip u)
              else beforeHash (pystrip u))
        else "" := rfl

/-- Claim C10 (amended): `normalize_listing_url` always returns either the
empty string or a string starting with `"http"` and containing no `'#'`;
it is idempotent on every input containing no `'#'` (but not in general:
whitespace can survive before a dropped fragment). -/
theorem normalize_url_shape (s : String) :
    (normalize_listing_url s = "" ∨
      pystartswith "http" (normalize_listing_url s) = true) ∧
    ('#' ∉ (normalize_listing_url s).data) ∧
    ('#' ∉ s.data →
      normalize_listing_url (normalize_listing_url s) = normalize_listing_url s) := by
  by_cases h0 : s = ""
  · subst h0
    exact ⟨Or.inl rfl, by decide, fun _ => rfl⟩
  · set h1 := beforeHash (pystrip s) with hh1
    set t := if pystartswith "/" h1 then BASE_URL ++ h1 else h1 with hht
    have hfs : normalize_listing_url s =
        if pystartswith "http" t then t else "" := by
      rw [normalize_listing_url_def s, if_neg h0]
    have hno1 : '#' ∉ h1.data := by
      intro hm
      exact absurd rfl (mem_beforeHash_ne hm)
    have hnot : '#' ∉ t.data := by
      rw [hht]
      split
      · rw [String.data_append]
        intro hm
        rcases List.mem_append.mp hm with hb | hh
        · exact absurd hb (by decide)
        · exact hno1 hh
      · exact hno1
    refine ⟨?_, ?_, ?_⟩
    · rw [hfs]
      split
      · next hc => exact Or.inr hc
      · exact Or.inl rfl
    · rw [hfs]
      split
      · exact hnot
      · decide
    · intro hs
      have hstrip_no : '#' ∉ (pystrip s).data := fun hm => hs (mem_stripChars hm)
      have hbh : h1 = pystrip s := by rw [hh1, beforeHash_eq_self hstrip_no]
      have hfix : stripChars h1.data = h1.data := by
        rw [hbh]
        exact stripChars_idem s.data
      by_cases hslash : pystartswith "/" h1 = true
      · have hts : t = BASE_URL ++ h1 := by rw [hht, if_pos hslash]
        have hhttp : pystartswith "http" t = true := by
          rw [hts]
          exact startswith_http_base_append h1
        have h1cons := @pystartswith_head "/" h1 '/' [] rfl hslash
        obtain ⟨r1, hr1⟩ := h1cons
        have h1ne : h1.data ≠ [] := by rw [hr1]; exact List.cons_ne_nil _ _
        have htdata : t.data = BASE_URL.data ++ h1.data := by
          rw [hts, String.data_append]
        have htne : t ≠ "" := by
          refine ne_empty_of_data_cons (c := 'h')
            (t := BASE_URL.data.tail ++ h1.data) ?_
          rw [htdata]
          rfl
        have hstript : pystrip t = t := by
          show (⟨stripChars t.data⟩ : String) = t
          rw [htdata, stripChars_base_append h1.data hfix h1ne, ← htdata]
        have hbht : beforeHash t = t := beforeHash_eq_self hnot
        have hslf : pystartswith "/" t = false := startswith_slash_of_http hhttp
        rw [hfs, if_pos hhttp, normalize_listing_url_def t, if_neg htne,
          hstript, hbht, hslf]
        simp only [Bool.false_eq_true, if_false, hhttp, if_true]
      · have hts : t = h1 := by
          rw [hht, if_neg hslash]
        by_cases hhttp : pystartswith "http" t = true
        · have h1data : pystrip h1 = h1 := by
            show (⟨stripChars h1.data⟩ : String) = h1
            rw [hfix]
          obtain ⟨r1, hr1⟩ :=
            @pystartswith_head "http" h1 'h' ['t', 't', 'p'] rfl
              (hts ▸ hhttp)
          have h1ne : h1 ≠ "" := ne_empty_of_data_cons hr1
          have hbh1 : beforeHash h1 = h1 := beforeHash_eq_self hno1
          have hslf : pystartswith "/" h1 = false :=
            startswith_slash_of_http (hts ▸ hhttp)
          rw [hfs, if_pos hhttp, hts, normalize_listing_url_def h1, if_neg h1ne,
            h1data, hbh1, hslf]
          simp only [Bool.false_eq_true, if_false, hts ▸ hhttp, if_true]
        · rw [hfs, if_neg hhttp]
          rfl

/-- Claim C10 (counterexample to the claim as stated): the function is not
idempotent — an input with whitespace before a `'#'` fragment yields an
output with trailing whitespace, which a second application strips. -/
theorem normalize_url_idem_cex :
    normalize_listing_url (normalize_listing_url "http://x #f") ≠
      normalize_listing_url "http://x #f" := by decide

/-- Witness for `normalize_url_shape`: idempotence at the fragment-free
input `"/eby/apa/d/berkeley/7001.html"`. -/
theorem normalize_url_shape_witness :
    normalize_listing_url (normalize_listing_url "/eby/apa/d/berkeley/7001.html") =
      normalize_listing_url "/eby/apa/d/berkeley/7001.html" :=
  (normalize_url_shape "/eby/apa/d/berkeley/7001.html").2.2 (by decide)
